import Mathlib

/-!
Verification development for the geojsonclipper tool (src/geojsonclipper.py).

The pipeline under study: load features → property filter → overlap merger
(buffer, greedy pairwise-overlap clustering) → polygon selector → CSV/GeoJSON
export.  Geometry operations (shapely / geopandas calls) are abstracted as a
`GeomOps` record; the control flow of the Python code is embedded directly.
A concrete, fully computable instantiation over finite sets of integer grid
cells (`gridOps`) is used to evaluate the embedded code on concrete inputs.
-/

set_option autoImplicit false

/-- A scalar property value, as stored in a GeoDataFrame column
(string, number, or null/NaN-like missing value). -/
inductive PVal where
  | str (s : String)
  | num (q : ℚ)
  | null
deriving DecidableEq, Repr

/-- One feature row of the GeoDataFrame: a geometry plus the remaining
property columns (an ordered key/value mapping). -/
structure Feature (G : Type) where
  geometry : G
  properties : List (String × PVal)
deriving DecidableEq, Repr

/-- The geometry operations the Python code calls on shapely objects.
`union2 a b` models `unary_union([a, b])`, `inter` models `.intersection`,
`area` models `.area`, `centroid` models `.centroid` (as an (x, y) pair),
`buffer` models `.buffer(distance)` (planar, in coordinate units). -/
structure GeomOps (G : Type) where
  buffer : G → ℚ → G
  intersects : G → G → Bool
  inter : G → G → G
  area : G → ℚ
  union2 : G → G → G
  centroid : G → ℚ × ℚ

/-- Facts that hold for real planar geometry (and for the grid instantiation):
areas are nonnegative, an intersection's area is at most either operand's
area, and geometries reported as non-intersecting have zero intersection
area.  These are properties of shapely's `area`/`intersection`/`intersects`,
not extra assumptions about the algorithm. -/
structure LawfulGeomOps (G : Type) extends GeomOps G where
  area_nonneg : ∀ g, 0 ≤ area g
  area_inter_le_left : ∀ a b, area (inter a b) ≤ area a
  area_inter_le_right : ∀ a b, area (inter a b) ≤ area b
  area_inter_of_not_intersects : ∀ a b, intersects a b = false → area (inter a b) = 0

/-- A value of one of the three columns of the merged GeoDataFrame. -/
inductive MVal (G : Type) where
  | geom (g : G)
  | count (n : ℕ)
  | point (p : ℚ × ℚ)
deriving DecidableEq, Repr

/-- One row of the merged GeoDataFrame: the Python code builds a dict
per cluster, so a merged row is an ordered key/value record. -/
abbrev MergedRecord (G : Type) : Type := List (String × MVal G)

/-- The dict literal built at lines 158-162 of the source:
`{'geometry': current_geom, 'original_count': len(current_group),
'center': current_geom.centroid}`. -/
def mkMergedRecord {G : Type} (currentGeom : G) (n : ℕ) (c : ℚ × ℚ) : MergedRecord G :=
  [("geometry", MVal.geom currentGeom), ("original_count", MVal.count n),
   ("center", MVal.point c)]

/-- The `original_count` entry of a merged record (0 if absent). -/
def recordCount {G : Type} (r : MergedRecord G) : ℕ :=
  match r.lookup "original_count" with
  | some (MVal.count n) => n
  | _ => 0

/-- Python exceptions the merge section can raise.  `zeroDivisionError`
models Python's `ZeroDivisionError` (division by a zero denominator). -/
inductive MergeErr where
  | zeroDivisionError
deriving DecidableEq, Repr

/-- The inner scan of the merge loop (source lines 142-155): starting from
`current_geom = curr`, walk the not-yet-processed indexed features after the
seed.  For each candidate: if it intersects the current geometry, compute
`intersection_area / min(area, area) * 100` (raising `ZeroDivisionError`
when the denominator is zero, as Python division does) and absorb the
candidate when the percentage strictly exceeds the threshold, replacing the
current geometry with the union.  Returns the absorbed indices, the final
current geometry, and the remaining (unabsorbed) features; the Python
`processed` set's effect on later outer iterations is realized by returning
only the unabsorbed features. -/
def mergeScan {G : Type} (L : GeomOps G) (threshold : ℚ) (curr : G) :
    List (ℕ × Feature G) → Except MergeErr (List ℕ × G × List (ℕ × Feature G))
  | [] => .ok ([], curr, [])
  | (j, f) :: rest =>
    if L.intersects curr f.geometry then
      let intersection_area := L.area (L.inter curr f.geometry)
      let min_area := min (L.area curr) (L.area f.geometry)
      if min_area = 0 then .error .zeroDivisionError
      else if intersection_area / min_area * 100 > threshold then
        match mergeScan L threshold (L.union2 curr f.geometry) rest with
        | .error e => .error e
        | .ok (abs, g, rem) => .ok (j :: abs, g, rem)
      else
        match mergeScan L threshold curr rest with
        | .error e => .error e
        | .ok (abs, g, rem) => .ok (abs, g, (j, f) :: rem)
    else
      match mergeScan L threshold curr rest with
      | .error e => .error e
      | .ok (abs, g, rem) => .ok (abs, g, (j, f) :: rem)

/-- The outer merge loop (source lines 132-163), with an explicit fuel
argument to express the recursion on the shrinking list of unprocessed
features; `mergeLoop` below supplies fuel equal to the list length, which
is always sufficient (the remainder returned by `mergeScan` is never longer
than its input). -/
def mergeLoopAux {G : Type} (L : GeomOps G) (threshold : ℚ) :
    ℕ → List (ℕ × Feature G) → Except MergeErr (List (MergedRecord G))
  | _, [] => .ok []
  | 0, _ :: _ => .ok []
  | fuel + 1, (i, f) :: rest =>
    match mergeScan L threshold f.geometry rest with
    | .error e => .error e
    | .ok (abs, currentGeom, rem) =>
      match mergeLoopAux L threshold fuel rem with
      | .error e => .error e
      | .ok out =>
        .ok (if (i :: abs).isEmpty then out
             else mkMergedRecord currentGeom (i :: abs).length (L.centroid currentGeom) :: out)

/-- The merge loop over an indexed feature list. -/
def mergeLoop {G : Type} (L : GeomOps G) (threshold : ℚ)
    (l : List (ℕ × Feature G)) : Except MergeErr (List (MergedRecord G)) :=
  mergeLoopAux L threshold l.length l

/-- `buffered_gdf` (source lines 113-114): the same rows with each geometry
replaced by its buffer.  Note the source buffers in raw coordinate units
(degrees for EPSG:4326 data); no projection to meters happens anywhere. -/
def bufferedList {G : Type} (L : GeomOps G) (d : ℚ) (feats : List (Feature G)) :
    List (Feature G) :=
  feats.map (fun f => { f with geometry := L.buffer f.geometry d })

/-- The Overlap Merger: buffer every feature, then run the greedy merge loop
over the buffered rows in input order. -/
def overlapMerger {G : Type} (L : GeomOps G) (d threshold : ℚ)
    (feats : List (Feature G)) : Except MergeErr (List (MergedRecord G)) :=
  mergeLoop L threshold (bufferedList L d feats).enum

/-- The merge stage including the statistics block (source lines 199-208):
after a successful merge the code computes
`reduction = ((len(gdf) - len(merged)) / len(gdf) * 100)`, which raises
`ZeroDivisionError` when the input collection is empty.  (The folium map
rendering between the loop and the statistics is display-only and omitted.) -/
def mergerStage {G : Type} (L : GeomOps G) (d threshold : ℚ)
    (feats : List (Feature G)) : Except MergeErr (List (MergedRecord G) × ℚ) :=
  match overlapMerger L d threshold feats with
  | .error e => .error e
  | .ok merged =>
    if feats.length = 0 then .error .zeroDivisionError
    else .ok (merged, ((feats.length : ℚ) - (merged.length : ℚ)) / (feats.length : ℚ) * 100)

/-- The property filter (source lines 63-65): `if selected_values:` filters
with `gdf[gdf[selected_column].isin(selected_values)]`; an empty selection
list is falsy, so the collection passes through unchanged. -/
def propertyFilter {G : Type} (feats : List (Feature G)) (key : String)
    (allowed : List PVal) : List (Feature G) :=
  if allowed.isEmpty then feats
  else feats.filter (fun f =>
    match f.properties.lookup key with
    | some v => allowed.contains v
    | none => false)

/-- A coordinate pair (longitude = x, latitude = y) in degrees. -/
abbrev Pt : Type := ℚ × ℚ

/-- `p` lies on the closed segment from `a` to `b` (collinear and inside the
bounding box).  Exact rational arithmetic. -/
def onSegment (a b p : Pt) : Bool :=
  decide ((b.1 - a.1) * (p.2 - a.2) - (b.2 - a.2) * (p.1 - a.1) = 0 ∧
    min a.1 b.1 ≤ p.1 ∧ p.1 ≤ max a.1 b.1 ∧ min a.2 b.2 ≤ p.2 ∧ p.2 ≤ max a.2 b.2)

/-- The edges of a linear ring: consecutive vertex pairs, with the closing
edge from the last vertex back to the first. -/
def ringEdges (ring : List Pt) : List (Pt × Pt) :=
  ring.zip (ring.rotate 1)

/-- `p` lies on the boundary of the polygon with the given ring. -/
def onBoundary (ring : List Pt) (p : Pt) : Bool :=
  (ringEdges ring).any (fun e => onSegment e.1 e.2 p)

/-- The horizontal ray from `p` to the right crosses the edge `e`
(standard even-odd rule; the strict/non-strict mix at the endpoints makes
each vertex count for exactly one of its two edges). -/
def rayCrosses (p : Pt) (e : Pt × Pt) : Bool :=
  decide (((e.1.2 ≤ p.2 ∧ p.2 < e.2.2) ∨ (e.2.2 ≤ p.2 ∧ p.2 < e.1.2)) ∧
    p.1 < e.1.1 + (e.2.1 - e.1.1) * (p.2 - e.1.2) / (e.2.2 - e.1.2))

/-- Model of shapely's `polygon.contains(point)`: the point lies strictly in
the interior (boundary-exclusive: points on an edge or at a vertex are not
contained). -/
def polyContains (ring : List Pt) (p : Pt) : Bool :=
  !(onBoundary ring p) && ((ringEdges ring).countP (rayCrosses p)) % 2 == 1

/-- The polygon selector (source line 274):
`gdf[gdf.apply(lambda row: select_poly.contains(row.geometry.centroid), axis=1)]`. -/
def selectFeatures {G : Type} (L : GeomOps G) (ring : List Pt)
    (feats : List (Feature G)) : List (Feature G) :=
  feats.filter (fun f => polyContains ring (L.centroid f.geometry))

/-- Python exceptions the selection stage can raise.  `valueError` models
the `ValueError` raised by `shapely.geometry.Polygon` when the ring has too
few coordinates (it is caught by the generic handler at line 310; the code
defines no dedicated polygon-error class). -/
inductive SelectorErr where
  | valueError
deriving DecidableEq, Repr

/-- The number of coordinates of the ring after shapely's implicit closing
(the first coordinate is appended when the ring is not already closed). -/
def closedRingCount (ring : List Pt) : ℕ :=
  if ring.head? = ring.getLast? then ring.length else ring.length + 1

/-- Model of `Polygon(selection['geometry']['coordinates'][0])` (source line
273): an empty coordinate list yields an empty polygon; otherwise the
closed ring must have at least 4 coordinates (at least 3 before closing),
else shapely raises `ValueError`.  Coordinate count, not distinctness, is
what is checked: a ring of 4 coincident coordinates constructs fine. -/
def mkSelectPoly (ring : List Pt) : Except SelectorErr (List Pt) :=
  if ring.isEmpty then .ok ring
  else if closedRingCount ring < 4 then .error .valueError
  else .ok ring

/-- The selection stage: build the drawn polygon, then filter the features
by strict containment of their centroids (source lines 273-274). -/
def selectorStage {G : Type} (L : GeomOps G) (ring : List Pt)
    (feats : List (Feature G)) : Except SelectorErr (List (Feature G)) :=
  match mkSelectPoly ring with
  | .error e => .error e
  | .ok r => .ok (selectFeatures L r feats)

/-- Python exceptions of the CSV export.  `nonPointGeometry` models the
error geopandas raises when `.y`/`.x` is taken on a GeoSeries holding
non-point geometries (e.g. merged cluster polygons). -/
inductive ExportErr where
  | nonPointGeometry
deriving DecidableEq, Repr

/-- One CSV row (source lines 298-300): the feature's property columns
(`geometry` dropped), then `latitude := geometry.y`, `longitude :=
geometry.x`.  `pf` is the point accessor of the geometry type: `some (x, y)`
for a point geometry, `none` for any other geometry (on which `.y`/`.x`
raise). -/
def csvRow {G : Type} (pf : G → Option Pt) (f : Feature G) :
    Except ExportErr (List (String × PVal)) :=
  match pf f.geometry with
  | none => .error .nonPointGeometry
  | some p => .ok (f.properties ++ [("latitude", PVal.num p.2), ("longitude", PVal.num p.1)])

/-- The CSV export (source lines 298-301): one row per selected feature;
any non-point geometry in the column makes the whole export raise. -/
def csvExport {G : Type} (pf : G → Option Pt) (feats : List (Feature G)) :
    Except ExportErr (List (List (String × PVal))) :=
  feats.mapM (csvRow pf)

/-- An axis-aligned square of grid cells: the cells within Chebyshev
distance `r` of `p`. -/
def cellSq (p : ℤ × ℤ) (r : ℤ) : Finset (ℤ × ℤ) :=
  Finset.Icc (p.1 - r) (p.1 + r) ×ˢ Finset.Icc (p.2 - r) (p.2 + r)

/-- Grid-cell buffering: dilate the cell set by a square of radius `⌈d⌉`.
This is the computable grid stand-in for shapely's (planar, disk-shaped)
buffer; it buffers in raw coordinate units, exactly as the source does. -/
def gridBuffer (s : Finset (ℤ × ℤ)) (d : ℚ) : Finset (ℤ × ℤ) :=
  s.biUnion (fun p => cellSq p ⌈d⌉)

/-- Centroid of a cell set: the mean cell coordinates (0/0 = 0 for ∅). -/
def gridCentroid (s : Finset (ℤ × ℤ)) : ℚ × ℚ :=
  ((s.sum (fun p => (p.1 : ℚ))) / s.card, (s.sum (fun p => (p.2 : ℚ))) / s.card)

/-- The concrete grid-cell geometry: finite sets of unit cells of the plane,
with cardinality as area.  All operations are computable, so the embedded
pipeline can be evaluated on concrete inputs. -/
def gridOps : GeomOps (Finset (ℤ × ℤ)) where
  buffer := gridBuffer
  intersects := fun a b => decide (a ∩ b ≠ ∅)
  inter := fun a b => a ∩ b
  area := fun s => (s.card : ℚ)
  union2 := fun a b => a ∪ b
  centroid := gridCentroid

/-- The grid geometry satisfies the planar-geometry facts. -/
def gridLawful : LawfulGeomOps (Finset (ℤ × ℤ)) where
  toGeomOps := gridOps
  area_nonneg := fun g => by simp [gridOps]
  area_inter_le_left := fun a b => by
    have h : a ∩ b ⊆ a := Finset.inter_subset_left
    simpa [gridOps] using Nat.cast_le.2 (Finset.card_le_card h)
  area_inter_le_right := fun a b => by
    have h : a ∩ b ⊆ b := Finset.inter_subset_right
    simpa [gridOps] using Nat.cast_le.2 (Finset.card_le_card h)
  area_inter_of_not_intersects := fun a b h => by
    simp only [gridOps, decide_eq_false_iff_not, not_not] at h
    simp [gridOps, h]

/-- Equality of `Except` results is decidable (needed to evaluate the
embedded pipeline on concrete inputs). -/
instance {ε α : Type} [DecidableEq ε] [DecidableEq α] : DecidableEq (Except ε α)
  | .error e, .error e' => decidable_of_iff (e = e') (by simp)
  | .error _, .ok _ => isFalse (by simp)
  | .ok _, .error _ => isFalse (by simp)
  | .ok a, .ok b => decidable_of_iff (a = b) (by simp)

instance : DecidableEq (MVal (Finset (ℤ × ℤ))) := inferInstance

/-- Three concrete point features on the grid: two adjacent, one far away. -/
def exFeats : List (Feature (Finset (ℤ × ℤ))) :=
  [⟨{((0 : ℤ), (0 : ℤ))}, [("name", PVal.str "a")]⟩,
   ⟨{((1 : ℤ), (0 : ℤ))}, [("name", PVal.str "b")]⟩,
   ⟨{((10 : ℤ), (10 : ℤ))}, [("name", PVal.str "c")]⟩]

/-- The merger output on `exFeats` with buffer 1 and threshold 50:
the two adjacent features merge (overlap 6/9 ≈ 67% > 50), the far one
passes through. -/
def exOut : List (MergedRecord (Finset (ℤ × ℤ))) :=
  [mkMergedRecord (gridOps.union2 (cellSq (0, 0) 1) (cellSq (1, 0) 1)) 2
     (gridOps.centroid (gridOps.union2 (cellSq (0, 0) 1) (cellSq (1, 0) 1))),
   mkMergedRecord (cellSq (10, 10) 1) 1 (gridOps.centroid (cellSq (10, 10) 1))]

/-- Two features with empty (degenerate, zero-area) geometries; their
buffers are also empty, hence zero-area and pairwise non-intersecting. -/
def exDegFeats : List (Feature (Finset (ℤ × ℤ))) :=
  [⟨∅, [("name", PVal.str "d1")]⟩, ⟨∅, [("name", PVal.str "d2")]⟩]

/-- The spec's merge scenario mapped onto the grid at a resolution of
10⁻⁴ degree per cell: points (0, 0), (0, 0.0001), (10, 10) in degrees
become cells (0, 0), (0, 1), (100000, 100000), and the buffer distance of
50 (which the source applies in raw degrees, never projecting to meters)
becomes 500000 cells. -/
def exC1Feats : List (Feature (Finset (ℤ × ℤ))) :=
  [⟨{((0 : ℤ), (0 : ℤ))}, []⟩, ⟨{((0 : ℤ), (1 : ℤ))}, []⟩,
   ⟨{((100000 : ℤ), (100000 : ℤ))}, []⟩]

/-- The drawn ring of a 4×4 square polygon. -/
def exRing : List Pt := [(0, 0), (4, 0), (4, 4), (0, 4)]

/-- A feature whose centroid (2, 2) lies strictly inside `exRing`. -/
def exSelFeat : Feature (Finset (ℤ × ℤ)) := ⟨{((2 : ℤ), (2 : ℤ))}, []⟩

/-- A degenerate drawn ring: four coincident coordinates (only one distinct
vertex), which shapely's `Polygon` constructor accepts without error. -/
def degRing : List Pt := [(0, 0), (0, 0), (0, 0), (0, 0)]

/-- For the exporter, a geometry is observed only through its point accessor,
so `Option Pt` is a faithful geometry carrier there: `some (x, y)` is a
point geometry, `none` any non-point geometry (on which `.x`/`.y` raise). -/
def exPtFeat : Feature (Option Pt) := ⟨some (-122.4, 37.8), [("name", PVal.str "site")]⟩

/-- A non-point (e.g. merged cluster polygon) feature reaching the exporter. -/
def exPolyFeat : Feature (Option Pt) := ⟨none, [("original_count", PVal.num 2)]⟩

/-- What the merge loop produces when nothing ever intersects: one
passthrough cluster per buffered feature, each with `original_count` 1. -/
def passthroughRecords {G : Type} (L : GeomOps G) (d : ℚ)
    (feats : List (Feature G)) : List (MergedRecord G) :=
  (bufferedList L d feats).map (fun f => mkMergedRecord f.geometry 1 (L.centroid f.geometry))

theorem recordCount_mk {G : Type} (g : G) (n : ℕ) (c : ℚ × ℚ) :
    recordCount (mkMergedRecord g n c) = n := rfl

theorem mergeScan_length {G : Type} (L : GeomOps G) (t : ℚ) :
    ∀ (l : List (ℕ × Feature G)) (curr : G) (abs : List ℕ) (g : G)
      (rem : List (ℕ × Feature G)),
      mergeScan L t curr l = .ok (abs, g, rem) → abs.length + rem.length = l.length := by
  intro l
  induction l with
  | nil =>
    intro curr abs g rem h
    simp only [mergeScan, Except.ok.injEq, Prod.mk.injEq] at h
    obtain ⟨h1, _, h3⟩ := h
    subst h1; subst h3
    simp
  | cons hd tl ih =>
    intro curr abs g rem h
    obtain ⟨j, f⟩ := hd
    simp only [mergeScan] at h
    split at h
    · split at h
      · exact absurd h (by simp)
      · split at h
        · split at h
          · exact absurd h (by simp)
          · rename_i a gg rr hrec
            simp only [Except.ok.injEq, Prod.mk.injEq] at h
            obtain ⟨h1, _, h3⟩ := h
            subst h1; subst h3
            have := ih _ _ _ _ hrec
            simp only [List.length_cons]
            omega
        · split at h
          · exact absurd h (by simp)
          · rename_i a gg rr hrec
            simp only [Except.ok.injEq, Prod.mk.injEq] at h
            obtain ⟨h1, _, h3⟩ := h
            subst h1; subst h3
            have := ih _ _ _ _ hrec
            simp only [List.length_cons]
            omega
    · split at h
      · exact absurd h (by simp)
      · rename_i a gg rr hrec
        simp only [Except.ok.injEq, Prod.mk.injEq] at h
        obtain ⟨h1, _, h3⟩ := h
        subst h1; subst h3
        have := ih _ _ _ _ hrec
        simp only [List.length_cons]
        omega

theorem mergeLoopAux_sum {G : Type} (L : GeomOps G) (t : ℚ) :
    ∀ (fuel : ℕ) (l : List (ℕ × Feature G)) (out : List (MergedRecord G)),
      l.length ≤ fuel → mergeLoopAux L t fuel l = .ok out →
      (out.map recordCount).sum = l.length := by
  intro fuel
  induction fuel with
  | zero =>
    intro l out hle h
    have hl : l = [] := List.length_eq_zero.1 (Nat.le_zero.1 hle)
    subst hl
    simp only [mergeLoopAux, Except.ok.injEq] at h
    subst h
    simp
  | succ fuel ih =>
    intro l out hle h
    cases l with
    | nil =>
      simp only [mergeLoopAux, Except.ok.injEq] at h
      subst h
      simp
    | cons hd tl =>
      obtain ⟨i, f⟩ := hd
      simp only [mergeLoopAux] at h
      split at h
      · exact absurd h (by simp)
      · rename_i abs currentGeom rem hscan
        split at h
        · exact absurd h (by simp)
        · rename_i out' hrec
          have hlen := mergeScan_length L t tl f.geometry abs currentGeom rem hscan
          have hrem : rem.length ≤ fuel := by
            simp only [List.length_cons] at hle
            omega
          have hsum := ih rem out' hrem hrec
          simp only [List.isEmpty_cons, Bool.false_eq_true, if_false, Except.ok.injEq] at h
          subst h
          simp only [List.map_cons, List.sum_cons, recordCount_mk, List.length_cons]
          omega

theorem mergeLoopAux_keys {G : Type} (L : GeomOps G) (t : ℚ) :
    ∀ (fuel : ℕ) (l : List (ℕ × Feature G)) (out : List (MergedRecord G)),
      mergeLoopAux L t fuel l = .ok out →
      ∀ r ∈ out, r.map Prod.fst = ["geometry", "original_count", "center"] := by
  intro fuel
  induction fuel with
  | zero =>
    intro l out h r hr
    cases l with
    | nil =>
      simp only [mergeLoopAux, Except.ok.injEq] at h
      subst h
      simp at hr
    | cons hd tl =>
      simp only [mergeLoopAux, Except.ok.injEq] at h
      subst h
      simp at hr
  | succ fuel ih =>
    intro l out h r hr
    cases l with
    | nil =>
      simp only [mergeLoopAux, Except.ok.injEq] at h
      subst h
      simp at hr
    | cons hd tl =>
      obtain ⟨i, f⟩ := hd
      simp only [mergeLoopAux] at h
      split at h
      · exact absurd h (by simp)
      · rename_i abs currentGeom rem hscan
        split at h
        · exact absurd h (by simp)
        · rename_i out' hrec
          simp only [List.isEmpty_cons, Bool.false_eq_true, if_false, Except.ok.injEq] at h
          subst h
          rcases List.mem_cons.1 hr with hr0 | hr1
          · subst hr0
            rfl
          · exact ih rem out' hrec r hr1

theorem mergeScan_nil {G : Type} (L : GeomOps G) (t : ℚ) (curr : G) :
    mergeScan L t curr [] = .ok ([], curr, []) := rfl

theorem mergeScan_cons_absorb {G : Type} (L : GeomOps G) (t : ℚ) (curr : G)
    (j : ℕ) (g : G) (props : List (String × PVal)) (rest : List (ℕ × Feature G))
    (h1 : L.intersects curr g = true)
    (h2 : ¬ min (L.area curr) (L.area g) = 0)
    (h3 : L.area (L.inter curr g) / min (L.area curr) (L.area g) * 100 > t) :
    mergeScan L t curr ((j, ⟨g, props⟩) :: rest) =
      (mergeScan L t (L.union2 curr g) rest).map
        (fun r => (j :: r.1, r.2.1, r.2.2)) := by
  simp only [mergeScan, h1, if_true, if_neg h2, if_pos h3]
  cases hrec : mergeScan L t (L.union2 curr g) rest with
  | error e => simp [Except.map]
  | ok r =>
    obtain ⟨a, gg, rr⟩ := r
    simp [Except.map]

theorem mergeScan_cons_keep {G : Type} (L : GeomOps G) (t : ℚ) (curr : G)
    (j : ℕ) (g : G) (props : List (String × PVal)) (rest : List (ℕ × Feature G))
    (h1 : L.intersects curr g = true)
    (h2 : ¬ min (L.area curr) (L.area g) = 0)
    (h3 : ¬ L.area (L.inter curr g) / min (L.area curr) (L.area g) * 100 > t) :
    mergeScan L t curr ((j, ⟨g, props⟩) :: rest) =
      (mergeScan L t curr rest).map (fun r => (r.1, r.2.1, (j, ⟨g, props⟩) :: r.2.2)) := by
  simp only [mergeScan, h1, if_true, if_neg h2, if_neg h3]
  cases hrec : mergeScan L t curr rest with
  | error e => simp [Except.map]
  | ok r =>
    obtain ⟨a, gg, rr⟩ := r
    simp [Except.map]

theorem mergeScan_cons_skip {G : Type} (L : GeomOps G) (t : ℚ) (curr : G)
    (j : ℕ) (g : G) (props : List (String × PVal)) (rest : List (ℕ × Feature G))
    (h1 : L.intersects curr g = false) :
    mergeScan L t curr ((j, ⟨g, props⟩) :: rest) =
      (mergeScan L t curr rest).map (fun r => (r.1, r.2.1, (j, ⟨g, props⟩) :: r.2.2)) := by
  simp only [mergeScan, h1]
  cases hrec : mergeScan L t curr rest with
  | error e => simp [Except.map]
  | ok r =>
    obtain ⟨a, gg, rr⟩ := r
    simp [Except.map]

theorem mergeLoopAux_nil_eval {G : Type} (L : GeomOps G) (t : ℚ) (fuel : ℕ) :
    mergeLoopAux L t fuel [] = .ok [] := by
  cases fuel <;> rfl

theorem mergeLoopAux_cons_eval {G : Type} (L : GeomOps G) (t : ℚ) (fuel : ℕ)
    (i : ℕ) (g : G) (props : List (String × PVal)) (rest : List (ℕ × Feature G))
    (abs : List ℕ) (gout : G) (rem : List (ℕ × Feature G)) (out : List (MergedRecord G))
    (hscan : mergeScan L t g rest = .ok (abs, gout, rem))
    (hrec : mergeLoopAux L t fuel rem = .ok out) :
    mergeLoopAux L t (fuel + 1) ((i, ⟨g, props⟩) :: rest) =
      .ok (mkMergedRecord gout (i :: abs).length (L.centroid gout) :: out) := by
  simp [mergeLoopAux, hscan, hrec]

theorem gridBuffer_singleton (p : ℤ × ℤ) (d : ℚ) :
    gridBuffer {p} d = cellSq p ⌈d⌉ := Finset.singleton_biUnion

theorem gridArea_eq (s : Finset (ℤ × ℤ)) (n : ℕ) (h : s.card = n) :
    gridOps.area s = (n : ℚ) := by simp [gridOps, h]

theorem exFeats_buffered :
    (bufferedList gridOps 1 exFeats).enum =
      [(0, ⟨cellSq (0, 0) 1, [("name", PVal.str "a")]⟩),
       (1, ⟨cellSq (1, 0) 1, [("name", PVal.str "b")]⟩),
       (2, ⟨cellSq (10, 10) 1, [("name", PVal.str "c")]⟩)] := by
  simp [bufferedList, exFeats, gridOps, gridBuffer_singleton, List.enum, List.enumFrom]

theorem exFeats_merge_eval : overlapMerger gridOps 1 50 exFeats = .ok exOut := by
  have hAB : gridOps.intersects (cellSq (0, 0) 1) (cellSq (1, 0) 1) = true := by decide
  have hA9 : gridOps.area (cellSq (0, 0) 1) = (9 : ℚ) := gridArea_eq _ 9 (by decide)
  have hB9 : gridOps.area (cellSq (1, 0) 1) = (9 : ℚ) := gridArea_eq _ 9 (by decide)
  have hI6 : gridOps.area (gridOps.inter (cellSq (0, 0) 1) (cellSq (1, 0) 1)) = (6 : ℚ) :=
    gridArea_eq _ 6 (by decide)
  have hUC : gridOps.intersects (gridOps.union2 (cellSq (0, 0) 1) (cellSq (1, 0) 1))
      (cellSq (10, 10) 1) = false := by decide
  have h2 : ¬ min (gridOps.area (cellSq (0, 0) 1)) (gridOps.area (cellSq (1, 0) 1)) = 0 := by
    rw [hA9, hB9]; norm_num
  have h3 : gridOps.area (gridOps.inter (cellSq (0, 0) 1) (cellSq (1, 0) 1)) /
      min (gridOps.area (cellSq (0, 0) 1)) (gridOps.area (cellSq (1, 0) 1)) * 100 > 50 := by
    rw [hA9, hB9, hI6]; norm_num
  have scan1 : mergeScan gridOps 50 (cellSq (0, 0) 1)
      [(1, ⟨cellSq (1, 0) 1, [("name", PVal.str "b")]⟩),
       (2, ⟨cellSq (10, 10) 1, [("name", PVal.str "c")]⟩)] =
      .ok ([1], gridOps.union2 (cellSq (0, 0) 1) (cellSq (1, 0) 1),
        [(2, ⟨cellSq (10, 10) 1, [("name", PVal.str "c")]⟩)]) := by
    rw [mergeScan_cons_absorb gridOps 50 (cellSq (0, 0) 1) 1 (cellSq (1, 0) 1)
      [("name", PVal.str "b")] [(2, ⟨cellSq (10, 10) 1, [("name", PVal.str "c")]⟩)] hAB h2 h3]
    rw [mergeScan_cons_skip gridOps 50 (gridOps.union2 (cellSq (0, 0) 1) (cellSq (1, 0) 1)) 2
      (cellSq (10, 10) 1) [("name", PVal.str "c")] [] hUC]
    rw [mergeScan_nil]
    rfl
  have scan2 : mergeScan gridOps 50 (cellSq (10, 10) 1)
      ([] : List (ℕ × Feature (Finset (ℤ × ℤ)))) =
      .ok ([], cellSq (10, 10) 1, []) := mergeScan_nil _ _ _
  have step : overlapMerger gridOps 1 50 exFeats = mergeLoopAux gridOps 50 3
      [(0, ⟨cellSq (0, 0) 1, [("name", PVal.str "a")]⟩),
       (1, ⟨cellSq (1, 0) 1, [("name", PVal.str "b")]⟩),
       (2, ⟨cellSq (10, 10) 1, [("name", PVal.str "c")]⟩)] := by
    rw [overlapMerger, mergeLoop, exFeats_buffered]
    rfl
  rw [step]
  exact mergeLoopAux_cons_eval gridOps 50 2 0 (cellSq (0, 0) 1) [("name", PVal.str "a")]
    [(1, ⟨cellSq (1, 0) 1, [("name", PVal.str "b")]⟩),
     (2, ⟨cellSq (10, 10) 1, [("name", PVal.str "c")]⟩)]
    [1] (gridOps.union2 (cellSq (0, 0) 1) (cellSq (1, 0) 1))
    [(2, ⟨cellSq (10, 10) 1, [("name", PVal.str "c")]⟩)]
    [mkMergedRecord (cellSq (10, 10) 1) 1 (gridOps.centroid (cellSq (10, 10) 1))]
    scan1
    (mergeLoopAux_cons_eval gridOps 50 1 2 (cellSq (10, 10) 1) [("name", PVal.str "c")]
      [] [] (cellSq (10, 10) 1) [] [] scan2 (mergeLoopAux_nil_eval gridOps 50 1))

/-- Claim C2: for every input FeatureCollection and all buffer-distance and
threshold parameters, whenever the Overlap Merger completes, the sum of
`original_count` over all emitted features equals the number of input
features (every input index lands in exactly one output cluster). -/
theorem merger_sum_original_count {G : Type} (L : GeomOps G) (d t : ℚ)
    (feats : List (Feature G)) (out : List (MergedRecord G))
    (h : overlapMerger L d t feats = .ok out) :
    (out.map recordCount).sum = feats.length := by
  have hs := mergeLoopAux_sum L t (bufferedList L d feats).enum.length
    (bufferedList L d feats).enum out (le_refl _) h
  rw [hs]
  simp [bufferedList]

/-- Witness for `merger_sum_original_count`: on the three concrete features
of `exFeats` (two merged, one passthrough) the counts 2 and 1 sum to 3. -/
theorem merger_sum_original_count_witness :
    overlapMerger gridOps 1 50 exFeats = .ok exOut ∧ (exOut.map recordCount).sum = 3 :=
  ⟨exFeats_merge_eval, merger_sum_original_count gridOps 1 50 exFeats exOut exFeats_merge_eval⟩

/-- Claim C10: every feature emitted by the Overlap Merger carries exactly
the three fields `geometry`, `original_count` and `center`; the property
keys of the absorbed input features are all discarded. -/
theorem merger_record_keys {G : Type} (L : GeomOps G) (d t : ℚ)
    (feats : List (Feature G)) (out : List (MergedRecord G))
    (h : overlapMerger L d t feats = .ok out) (r : MergedRecord G) (hr : r ∈ out) :
    r.map Prod.fst = ["geometry", "original_count", "center"] :=
  mergeLoopAux_keys L t (bufferedList L d feats).enum.length
    (bufferedList L d feats).enum out h r hr

/-- Witness for `merger_record_keys`: the first record emitted for `exFeats`
(which absorbed two features carrying a `name` property) has exactly the
three derived keys. -/
theorem merger_record_keys_witness :
    overlapMerger gridOps 1 50 exFeats = .ok exOut ∧
      (mkMergedRecord (gridOps.union2 (cellSq (0, 0) 1) (cellSq (1, 0) 1)) 2
        (gridOps.centroid (gridOps.union2 (cellSq (0, 0) 1) (cellSq (1, 0) 1)))).map
          Prod.fst = ["geometry", "original_count", "center"] :=
  ⟨exFeats_merge_eval,
   merger_record_keys gridOps 1 50 exFeats exOut exFeats_merge_eval _ (List.mem_cons_self _ _)⟩

/-- Claim C3: in the inner scan, a candidate is absorbed into the current
cluster exactly when `intersection_area / min(areas) * 100` strictly exceeds
the threshold, and on absorption the current geometry becomes the union, so
later comparisons use the growing union.  (Hypotheses: the threshold is
nonnegative, as the UI slider enforces, and the smaller compared area is
nonzero, so Python's division does not raise.) -/
theorem scan_absorb_iff {G : Type} (L : LawfulGeomOps G) (t : ℚ) (ht : 0 ≤ t)
    (curr : G) (j : ℕ) (f : Feature G) (rest : List (ℕ × Feature G))
    (hm : ¬ min (L.area curr) (L.area f.geometry) = 0) :
    mergeScan L.toGeomOps t curr ((j, f) :: rest) =
      if L.area (L.inter curr f.geometry) / min (L.area curr) (L.area f.geometry) * 100 > t then
        (mergeScan L.toGeomOps t (L.union2 curr f.geometry) rest).map
          (fun r => (j :: r.1, r.2.1, r.2.2))
      else
        (mergeScan L.toGeomOps t curr rest).map (fun r => (r.1, r.2.1, (j, f) :: r.2.2)) := by
  by_cases h1 : L.intersects curr f.geometry = true
  · simp only [mergeScan, h1, if_true, if_neg hm]
    by_cases h3 : L.area (L.inter curr f.geometry) /
        min (L.area curr) (L.area f.geometry) * 100 > t
    · simp only [if_pos h3]
      cases hrec : mergeScan L.toGeomOps t (L.union2 curr f.geometry) rest with
      | error e => simp [Except.map]
      | ok r =>
        obtain ⟨a, gg, rr⟩ := r
        simp [Except.map]
    · simp only [if_neg h3]
      cases hrec : mergeScan L.toGeomOps t curr rest with
      | error e => simp [Except.map]
      | ok r =>
        obtain ⟨a, gg, rr⟩ := r
        simp [Except.map]
  · have h1' : L.intersects curr f.geometry = false := by simpa using h1
    have hz := L.area_inter_of_not_intersects _ _ h1'
    simp only [mergeScan, h1', Bool.false_eq_true, if_false]
    rw [hz, if_neg (by rw [zero_div, zero_mul]; exact not_lt.2 ht)]
    cases hrec : mergeScan L.toGeomOps t curr rest with
    | error e => simp [Except.map]
    | ok r =>
      obtain ⟨a, gg, rr⟩ := r
      simp [Except.map]

/-- Witness for `scan_absorb_iff` at threshold 40 on two overlapping
buffered squares (overlap 6/9 ≈ 67% > 40, so the candidate is absorbed). -/
theorem scan_absorb_iff_witness :
    (0 : ℚ) ≤ 40 ∧
    ¬ min (gridOps.area (cellSq (0, 0) 1)) (gridOps.area (cellSq (1, 0) 1)) = 0 ∧
    mergeScan gridOps 40 (cellSq (0, 0) 1) [(1, ⟨cellSq (1, 0) 1, []⟩)] =
      (if gridOps.area (gridOps.inter (cellSq (0, 0) 1) (cellSq (1, 0) 1)) /
          min (gridOps.area (cellSq (0, 0) 1)) (gridOps.area (cellSq (1, 0) 1)) * 100 > 40 then
        (mergeScan gridOps 40 (gridOps.union2 (cellSq (0, 0) 1) (cellSq (1, 0) 1)) []).map
          (fun r => (1 :: r.1, r.2.1, r.2.2))
      else
        (mergeScan gridOps 40 (cellSq (0, 0) 1) []).map
          (fun r => (r.1, r.2.1, (1, ⟨cellSq (1, 0) 1, []⟩) :: r.2.2))) := by
  refine ⟨by norm_num, ?_, ?_⟩
  · show ¬ min (gridOps.area (cellSq (0, 0) 1)) (gridOps.area (cellSq (1, 0) 1)) = 0
    rw [gridArea_eq _ 9 (by decide), gridArea_eq _ 9 (by decide)]
    norm_num
  · exact scan_absorb_iff gridLawful 40 (by norm_num) (cellSq (0, 0) 1) 1
      ⟨cellSq (1, 0) 1, []⟩ []
      (by show ¬ min (gridOps.area (cellSq (0, 0) 1)) (gridOps.area (cellSq (1, 0) 1)) = 0
          rw [gridArea_eq _ 9 (by decide), gridArea_eq _ 9 (by decide)]
          norm_num)

/-- Claim C4: with threshold 100 the inner scan never absorbs a candidate —
the intersection area never exceeds the smaller of the two areas, so
`intersection_area / min_area * 100` is at most 100 and the strict
comparison `> 100` always fails.  In particular absorption happens only in
the full-containment-of-the-smaller case, vacuously: even a geometry fully
contained in the other (ratio exactly 100) is not absorbed. -/
theorem scan_threshold100_no_merge {G : Type} (L : LawfulGeomOps G) (curr : G)
    (j : ℕ) (f : Feature G) (rest : List (ℕ × Feature G))
    (hm : ¬ min (L.area curr) (L.area f.geometry) = 0) :
    mergeScan L.toGeomOps 100 curr ((j, f) :: rest) =
      (mergeScan L.toGeomOps 100 curr rest).map (fun r => (r.1, r.2.1, (j, f) :: r.2.2)) := by
  by_cases h1 : L.intersects curr f.geometry = true
  · have h0le : (0 : ℚ) ≤ min (L.area curr) (L.area f.geometry) :=
      le_min (L.area_nonneg _) (L.area_nonneg _)
    have hpos : (0 : ℚ) < min (L.area curr) (L.area f.geometry) :=
      lt_of_le_of_ne h0le (Ne.symm hm)
    have hle : L.area (L.inter curr f.geometry) ≤ min (L.area curr) (L.area f.geometry) :=
      le_min (L.area_inter_le_left _ _) (L.area_inter_le_right _ _)
    have hdiv : L.area (L.inter curr f.geometry) /
        min (L.area curr) (L.area f.geometry) ≤ 1 := (div_le_one hpos).2 hle
    have hno : ¬ L.area (L.inter curr f.geometry) /
        min (L.area curr) (L.area f.geometry) * 100 > 100 := by
      have := mul_le_mul_of_nonneg_right hdiv (by norm_num : (0 : ℚ) ≤ 100)
      rw [one_mul] at this
      exact not_lt.2 this
    simp only [mergeScan, h1, if_true, if_neg hm, if_neg hno]
    cases hrec : mergeScan L.toGeomOps 100 curr rest with
    | error e => simp [Except.map]
    | ok r =>
      obtain ⟨a, gg, rr⟩ := r
      simp [Except.map]
  · have h1' : L.intersects curr f.geometry = false := by simpa using h1
    simp only [mergeScan, h1', Bool.false_eq_true, if_false]
    cases hrec : mergeScan L.toGeomOps 100 curr rest with
    | error e => simp [Except.map]
    | ok r =>
      obtain ⟨a, gg, rr⟩ := r
      simp [Except.map]

/-- Witness for `scan_threshold100_no_merge`: a buffered square compared at
threshold 100 against an identical copy of itself (full mutual containment,
overlap ratio exactly 100) is still not absorbed. -/
theorem scan_threshold100_no_merge_witness :
    ¬ min (gridOps.area (cellSq (0, 0) 1)) (gridOps.area (cellSq (0, 0) 1)) = 0 ∧
    mergeScan gridOps 100 (cellSq (0, 0) 1) [(1, ⟨cellSq (0, 0) 1, []⟩)] =
      (mergeScan gridOps 100 (cellSq (0, 0) 1) []).map
        (fun r => (r.1, r.2.1, (1, ⟨cellSq (0, 0) 1, []⟩) :: r.2.2)) := by
  refine ⟨?_, ?_⟩
  · show ¬ min (gridOps.area (cellSq (0, 0) 1)) (gridOps.area (cellSq (0, 0) 1)) = 0
    rw [gridArea_eq _ 9 (by decide)]
    norm_num
  · exact scan_threshold100_no_merge gridLawful (cellSq (0, 0) 1) 1 ⟨cellSq (0, 0) 1, []⟩ []
      (by show ¬ min (gridOps.area (cellSq (0, 0) 1)) (gridOps.area (cellSq (0, 0) 1)) = 0
          rw [gridArea_eq _ 9 (by decide)]
          norm_num)

/-- Claim C5: the Property Filter with an empty allowed-value set returns
the input collection unchanged — `if selected_values:` is falsy for an
empty list, so no filtering is applied. -/
theorem property_filter_empty_id {G : Type} (feats : List (Feature G)) (key : String) :
    propertyFilter feats key [] = feats := rfl

theorem mergeScan_no_intersect {G : Type} (L : GeomOps G) (t : ℚ) :
    ∀ (l : List (ℕ × Feature G)) (curr : G),
      (∀ x ∈ l, L.intersects curr x.2.geometry = false) →
      mergeScan L t curr l = .ok ([], curr, l) := by
  intro l
  induction l with
  | nil => intro curr _; rfl
  | cons hd tl ih =>
    intro curr h
    obtain ⟨j, f⟩ := hd
    have hh : L.intersects curr f.geometry = false := h (j, f) (List.mem_cons_self _ _)
    simp only [mergeScan, hh, Bool.false_eq_true, if_false]
    rw [ih curr (fun x hx => h x (List.mem_cons_of_mem _ hx))]

theorem mergeLoopAux_pairwise_passthrough {G : Type} (L : GeomOps G) (t : ℚ) :
    ∀ (fuel : ℕ) (l : List (ℕ × Feature G)),
      l.length ≤ fuel →
      l.Pairwise (fun a b => L.intersects a.2.geometry b.2.geometry = false) →
      mergeLoopAux L t fuel l =
        .ok (l.map (fun p => mkMergedRecord p.2.geometry 1 (L.centroid p.2.geometry))) := by
  intro fuel
  induction fuel with
  | zero =>
    intro l hle _
    have hl : l = [] := List.length_eq_zero.1 (Nat.le_zero.1 hle)
    subst hl
    rfl
  | succ fuel ih =>
    intro l hle hp
    cases l with
    | nil => rfl
    | cons hd tl =>
      obtain ⟨i, f⟩ := hd
      rcases List.pairwise_cons.1 hp with ⟨hhd, htl⟩
      have hscan := mergeScan_no_intersect L t tl f.geometry (fun x hx => hhd x hx)
      have hrec : mergeLoopAux L t fuel tl =
          .ok (tl.map (fun p => mkMergedRecord p.2.geometry 1 (L.centroid p.2.geometry))) := by
        apply ih tl _ htl
        simp only [List.length_cons] at hle
        omega
      simp only [mergeLoopAux, hscan, hrec]
      simp

/-- Counterexample to claim C8 as stated: for the empty input collection the
merger stage raises `ZeroDivisionError` (the reduction statistic divides by
`len(gdf) = 0` at source line 207) instead of completing without error. -/
theorem merger_stage_empty_raises :
    mergerStage gridOps 25 50 ([] : List (Feature (Finset (ℤ × ℤ)))) =
      .error .zeroDivisionError := rfl

/-- Claim C8 (amended): for an empty input the merge loop itself yields an
empty output collection, but the stage then raises `ZeroDivisionError` in
the reduction statistic; and a non-empty input whose buffered geometries
are pairwise non-intersecting (as zero-area degenerate buffers are) yields
one passthrough cluster per input feature, not an empty output. -/
theorem merger_stage_empty_and_degenerate {G : Type} (L : GeomOps G) (d t : ℚ)
    (feats : List (Feature G))
    (h : (bufferedList L d feats).Pairwise
      (fun a b => L.intersects a.geometry b.geometry = false)) :
    overlapMerger L d t ([] : List (Feature G)) = .ok [] ∧
    mergerStage L d t ([] : List (Feature G)) = .error .zeroDivisionError ∧
    overlapMerger L d t feats = .ok (passthroughRecords L d feats) := by
  refine ⟨rfl, rfl, ?_⟩
  have h' : (bufferedList L d feats).enum.Pairwise
      (fun a b => L.intersects a.2.geometry b.2.geometry = false) := by
    rw [← List.enum_map_snd (bufferedList L d feats)] at h
    exact List.pairwise_map.1 h
  have hloop := mergeLoopAux_pairwise_passthrough L t
    (bufferedList L d feats).enum.length (bufferedList L d feats).enum (le_refl _) h'
  rw [overlapMerger, mergeLoop, hloop, passthroughRecords]
  conv_rhs => rw [← List.enum_map_snd (bufferedList L d feats), List.map_map]
  rfl

/-- Witness for `merger_stage_empty_and_degenerate`: two features with empty
(zero-area) geometries; their buffers are empty, never intersect, and pass
through as two singleton clusters while the empty input errors. -/
theorem merger_stage_empty_and_degenerate_witness :
    (bufferedList gridOps 1 exDegFeats).Pairwise
      (fun a b => gridOps.intersects a.geometry b.geometry = false) ∧
    (overlapMerger gridOps 1 50 ([] : List (Feature (Finset (ℤ × ℤ)))) = .ok [] ∧
     mergerStage gridOps 1 50 ([] : List (Feature (Finset (ℤ × ℤ)))) = .error .zeroDivisionError ∧
     overlapMerger gridOps 1 50 exDegFeats = .ok (passthroughRecords gridOps 1 exDegFeats)) :=
  ⟨by decide, merger_stage_empty_and_degenerate gridOps 1 50 exDegFeats (by decide)⟩

theorem polyContains_degRing (p : Pt) : polyContains degRing p = false := by
  have hray : rayCrosses p (((0 : ℚ), (0 : ℚ)), ((0 : ℚ), (0 : ℚ))) = false := by
    apply decide_eq_false
    rintro ⟨h1 | h1, -⟩
    · exact absurd (lt_of_le_of_lt h1.1 h1.2) (lt_irrefl _)
    · exact absurd (lt_of_le_of_lt h1.1 h1.2) (lt_irrefl _)
  have hedges : ringEdges degRing =
      [(((0 : ℚ), (0 : ℚ)), ((0 : ℚ), (0 : ℚ))), (((0 : ℚ), (0 : ℚ)), ((0 : ℚ), (0 : ℚ))),
       (((0 : ℚ), (0 : ℚ)), ((0 : ℚ), (0 : ℚ))), (((0 : ℚ), (0 : ℚ)), ((0 : ℚ), (0 : ℚ)))] := rfl
  rw [polyContains, hedges]
  simp only [List.countP_cons, List.countP_nil, hray, Bool.false_eq_true, if_false]
  simp

/-- Counterexample to claim C9 as stated: a drawn ring of four coincident
coordinates has only one distinct vertex, yet the code raises no error at
all — the shapely `Polygon` constructor checks coordinate count, not
distinctness, and the selection completes (selecting nothing).  There is
also no `InvalidPolygonError` anywhere in the code. -/
theorem selector_few_distinct_no_error :
    selectorStage gridOps degRing [exSelFeat] = .ok [] := by
  show Except.ok (selectFeatures gridOps degRing [exSelFeat]) = .ok []
  simp [selectFeatures, polyContains_degRing]

/-- Claim C9 (amended): the selection stage errors exactly when the drawn
ring is non-empty and its implicitly closed form has fewer than 4
coordinates (shapely's `ValueError`, caught by the generic handler — the
code defines no `InvalidPolygonError`); any ring with enough coordinates,
distinct or not, completes the selection without error. -/
theorem selector_error_iff_too_few_coords {G : Type} (L : GeomOps G) (ring : List Pt)
    (feats : List (Feature G)) :
    selectorStage L ring feats =
      if ring.isEmpty = false ∧ closedRingCount ring < 4 then .error .valueError
      else .ok (selectFeatures L ring feats) := by
  rw [selectorStage, mkSelectPoly]
  by_cases h1 : ring.isEmpty
  · simp [h1]
  · by_cases h2 : closedRingCount ring < 4
    · simp [h1, h2]
    · simp [h1, h2]

theorem onSegment_self_left (a b : Pt) : onSegment a b a = true := by
  apply decide_eq_true
  exact ⟨by ring, min_le_left _ _, le_max_left _ _, min_le_left _ _, le_max_left _ _⟩

theorem mem_ringEdges_self {ring : List Pt} {v : Pt} (hv : v ∈ ring) :
    ∃ w, (v, w) ∈ ringEdges ring := by
  obtain ⟨⟨i, hi⟩, rfl⟩ := List.mem_iff_get.1 hv
  have hi' : i < (ring.rotate 1).length := by rw [List.length_rotate]; exact hi
  have hlen2 : i < (ring.zip (ring.rotate 1)).length := by
    rw [List.length_zip, List.length_rotate, min_self]
    exact hi
  refine ⟨(ring.rotate 1)[i], ?_⟩
  have h2 : (ring.zip (ring.rotate 1))[i] = (ring[i], (ring.rotate 1)[i]) :=
    List.getElem_zip
  have h3 := List.getElem_mem hlen2
  rw [h2] at h3
  simpa [ringEdges, List.get_eq_getElem] using h3

theorem polyContains_vertex_false (ring : List Pt) (v : Pt) (hv : v ∈ ring) :
    polyContains ring v = false := by
  obtain ⟨w, hw⟩ := mem_ringEdges_self hv
  have hb : onBoundary ring v = true := by
    rw [onBoundary, List.any_eq_true]
    exact ⟨(v, w), hw, onSegment_self_left v w⟩
  rw [polyContains, hb]
  rfl

/-- Claim C6: the Polygon Selector keeps exactly the features whose
representative point (the centroid of their geometry) the polygon strictly
contains — library `contains` is boundary-exclusive — and any point lying
at a vertex of the ring is never contained, so a feature centred on a
vertex is excluded from the selection. -/
theorem selector_strict_interior {G : Type} (L : GeomOps G) (ring : List Pt)
    (feats : List (Feature G)) :
    (∀ f : Feature G, f ∈ selectFeatures L ring feats ↔
      f ∈ feats ∧ polyContains ring (L.centroid f.geometry) = true) ∧
    (∀ v ∈ ring, polyContains ring v = false) ∧
    (∀ f : Feature G, L.centroid f.geometry ∈ ring → f ∉ selectFeatures L ring feats) := by
  refine ⟨?_, ?_, ?_⟩
  · intro f
    simp [selectFeatures, List.mem_filter]
  · intro v hv
    exact polyContains_vertex_false ring v hv
  · intro f hf hmem
    have h1 : polyContains ring (L.centroid f.geometry) = true := by
      have := List.mem_filter.1 hmem
      simpa [selectFeatures] using this.2
    rw [polyContains_vertex_false ring _ hf] at h1
    exact absurd h1 (by simp)

/-- Witness for `selector_strict_interior` on the square ring `exRing` and
the singleton collection `[exSelFeat]`, with the vertex (0, 0). -/
theorem selector_strict_interior_witness :
    (exSelFeat ∈ selectFeatures gridOps exRing [exSelFeat] ↔
      exSelFeat ∈ [exSelFeat] ∧
        polyContains exRing (gridOps.centroid exSelFeat.geometry) = true) ∧
    polyContains exRing (0, 0) = false :=
  ⟨(selector_strict_interior gridOps exRing [exSelFeat]).1 exSelFeat,
   (selector_strict_interior gridOps exRing [exSelFeat]).2.1 (0, 0) (by simp [exRing])⟩

/-- Counterexample to claim C7 as stated: a selected collection may hold a
non-point geometry (a merged cluster), and there `selected_signals.geometry.y`
raises instead of producing a row, so the CSV export fails rather than
emitting one row per feature. -/
theorem csv_export_nonpoint_raises :
    csvExport (fun g => g) [exPolyFeat] = .error .nonPointGeometry := rfl

/-- Claim C7 (amended): for a selected collection of point features the CSV
export yields one row per feature, the row being the feature's property
columns (geometry dropped) followed by `latitude = geometry.y` and
`longitude = geometry.x`; collections containing a non-point geometry make
the export raise instead. -/
theorem csv_export_rows {G : Type} (pf : G → Option Pt) (feats : List (Feature G))
    (h : ∀ f ∈ feats, (pf f.geometry).isSome = true) :
    csvExport pf feats = .ok (feats.map (fun f =>
      match pf f.geometry with
      | some p => f.properties ++ [("latitude", PVal.num p.2), ("longitude", PVal.num p.1)]
      | none => [])) := by
  induction feats with
  | nil => rfl
  | cons hd tl ih =>
    have hh := h hd (List.mem_cons_self _ _)
    obtain ⟨p, hp⟩ := Option.isSome_iff_exists.1 hh
    have htl := ih (fun f hf => h f (List.mem_cons_of_mem _ hf))
    simp only [csvExport] at htl ⊢
    rw [List.mapM_cons, htl]
    simp only [csvRow, hp, List.map_cons]
    rfl

/-- Witness for `csv_export_rows`: the spec scenario — a single point
feature at (lon = -122.4, lat = 37.8) exports to one row with
`latitude = 37.8` and `longitude = -122.4`. -/
theorem csv_export_rows_witness :
    csvExport (fun g => g) [exPtFeat] =
      .ok [[("name", PVal.str "site"), ("latitude", PVal.num 37.8),
            ("longitude", PVal.num (-122.4))]] := by
  rw [csv_export_rows (fun g => g) [exPtFeat] (by decide)]
  rfl

theorem cellSq_eq (x y r : ℤ) :
    cellSq (x, y) r = Finset.Icc (x - r) (x + r) ×ˢ Finset.Icc (y - r) (y + r) := rfl

theorem Icc_inter_Icc_int (a b c d : ℤ) :
    Finset.Icc a b ∩ Finset.Icc c d = Finset.Icc (max a c) (min b d) := by
  ext x
  simp only [Finset.mem_inter, Finset.mem_Icc, le_min_iff, max_le_iff]
  omega

theorem prod_union_left {α β : Type} [DecidableEq α] [DecidableEq β]
    (s : Finset α) (t u : Finset β) : s ×ˢ t ∪ s ×ˢ u = s ×ˢ (t ∪ u) := by
  ext ⟨x, y⟩
  simp only [Finset.mem_union, Finset.mem_product]
  tauto

theorem gridIntersects_of_mem (s t : Finset (ℤ × ℤ)) (a : ℤ × ℤ) (h : a ∈ s ∩ t) :
    gridOps.intersects s t = true := by
  have hne : s ∩ t ≠ ∅ := Finset.ne_empty_of_mem h
  simp [gridOps, hne]

set_option maxHeartbeats 1000000 in
/-- Claim C1 (code evaluation at the failing input): the spec scenario —
points (0, 0), (0, 0.0001), (10, 10) degrees, buffer 50 "meters",
threshold 50% — embedded on a grid of 10⁻⁴-degree cells.  Because the
source buffers the unprojected EPSG:4326 geometries directly,
`buffer(50)` dilates by 50 degrees (500000 cells), so all three buffers
pairwise overlap far above 50% and the merger emits ONE cluster with
`original_count = 3`, not the two clusters (counts 2 and 1) the claim
describes. -/
theorem merger_degree_buffer_merges_all :
    (overlapMerger gridOps 500000 50 exC1Feats).map
      (fun out => (out.length, out.map recordCount)) = .ok (1, [3]) := by
  have hA : cellSq (0, 0) 500000 =
      Finset.Icc (-500000 : ℤ) 500000 ×ˢ Finset.Icc (-500000 : ℤ) 500000 := by
    rw [cellSq_eq]; norm_num
  have hB : cellSq (0, 1) 500000 =
      Finset.Icc (-500000 : ℤ) 500000 ×ˢ Finset.Icc (-499999 : ℤ) 500001 := by
    rw [cellSq_eq]; norm_num
  have hC : cellSq (100000, 100000) 500000 =
      Finset.Icc (-400000 : ℤ) 600000 ×ˢ Finset.Icc (-400000 : ℤ) 600000 := by
    rw [cellSq_eq]; norm_num
  have hcard1 : (Finset.Icc (-500000 : ℤ) 500000).card = 1000001 := by
    rw [Int.card_Icc]; decide
  have hcard2 : (Finset.Icc (-499999 : ℤ) 500001).card = 1000001 := by
    rw [Int.card_Icc]; decide
  have hcard3 : (Finset.Icc (-499999 : ℤ) 500000).card = 1000000 := by
    rw [Int.card_Icc]; decide
  have hcard4 : (Finset.Icc (-500000 : ℤ) 500001).card = 1000002 := by
    rw [Int.card_Icc]; decide
  have hcard5 : (Finset.Icc (-400000 : ℤ) 600000).card = 1000001 := by
    rw [Int.card_Icc]; decide
  have hcard6 : (Finset.Icc (-400000 : ℤ) 500000).card = 900001 := by
    rw [Int.card_Icc]; decide
  have hcard7 : (Finset.Icc (-400000 : ℤ) 500001).card = 900002 := by
    rw [Int.card_Icc]; decide
  have hmax1 : max (-500000 : ℤ) (-500000) = -500000 := by omega
  have hmin1 : min (500000 : ℤ) 500000 = 500000 := by omega
  have hmax2 : max (-500000 : ℤ) (-499999) = -499999 := by omega
  have hmin2 : min (500000 : ℤ) 500001 = 500000 := by omega
  have hAB : cellSq (0, 0) 500000 ∩ cellSq (0, 1) 500000 =
      Finset.Icc (-500000 : ℤ) 500000 ×ˢ Finset.Icc (-499999 : ℤ) 500000 := by
    rw [hA, hB, Finset.product_inter_product, Icc_inter_Icc_int, Icc_inter_Icc_int,
      hmax1, hmin1, hmax2, hmin2]
  have hU : gridOps.union2 (cellSq (0, 0) 500000) (cellSq (0, 1) 500000) =
      Finset.Icc (-500000 : ℤ) 500000 ×ˢ Finset.Icc (-500000 : ℤ) 500001 := by
    show cellSq (0, 0) 500000 ∪ cellSq (0, 1) 500000 = _
    have hIccU : Finset.Icc (-500000 : ℤ) 500000 ∪ Finset.Icc (-499999 : ℤ) 500001 =
        Finset.Icc (-500000 : ℤ) 500001 := by
      ext x
      simp only [Finset.mem_union, Finset.mem_Icc]
      omega
    rw [hA, hB, prod_union_left, hIccU]
  have hUC : gridOps.union2 (cellSq (0, 0) 500000) (cellSq (0, 1) 500000) ∩
      cellSq (100000, 100000) 500000 =
      Finset.Icc (-400000 : ℤ) 500000 ×ˢ Finset.Icc (-400000 : ℤ) 500001 := by
    have hmax3 : max (-500000 : ℤ) (-400000) = -400000 := by omega
    have hmin3 : min (500000 : ℤ) 600000 = 500000 := by omega
    have hmin4 : min (500001 : ℤ) 600000 = 500001 := by omega
    rw [hU, hC, Finset.product_inter_product, Icc_inter_Icc_int, Icc_inter_Icc_int,
      hmax3, hmin3, hmin4]
  have hint1 : gridOps.intersects (cellSq (0, 0) 500000) (cellSq (0, 1) 500000) = true := by
    apply gridIntersects_of_mem _ _ ((0 : ℤ), (0 : ℤ))
    rw [hAB]
    simp only [Finset.mem_product, Finset.mem_Icc]
    omega
  have hint2 : gridOps.intersects
      (gridOps.union2 (cellSq (0, 0) 500000) (cellSq (0, 1) 500000))
      (cellSq (100000, 100000) 500000) = true := by
    apply gridIntersects_of_mem _ _ ((0 : ℤ), (0 : ℤ))
    rw [hUC]
    simp only [Finset.mem_product, Finset.mem_Icc]
    omega
  have areaA : gridOps.area (cellSq (0, 0) 500000) = (1000002000001 : ℚ) := by
    apply gridArea_eq
    rw [hA, Finset.card_product, hcard1]
  have areaB : gridOps.area (cellSq (0, 1) 500000) = (1000002000001 : ℚ) := by
    apply gridArea_eq
    rw [hB, Finset.card_product, hcard1, hcard2]
  have areaC : gridOps.area (cellSq (100000, 100000) 500000) = (1000002000001 : ℚ) := by
    apply gridArea_eq
    rw [hC, Finset.card_product, hcard5]
  have areaAB : gridOps.area (gridOps.inter (cellSq (0, 0) 500000) (cellSq (0, 1) 500000)) =
      (1000001000000 : ℚ) := by
    apply gridArea_eq
    show (cellSq (0, 0) 500000 ∩ cellSq (0, 1) 500000).card = 1000001000000
    rw [hAB, Finset.card_product, hcard1, hcard3]
  have areaU : gridOps.area (gridOps.union2 (cellSq (0, 0) 500000) (cellSq (0, 1) 500000)) =
      (1000003000002 : ℚ) := by
    apply gridArea_eq
    rw [hU, Finset.card_product, hcard1, hcard4]
  have areaUC : gridOps.area (gridOps.inter
      (gridOps.union2 (cellSq (0, 0) 500000) (cellSq (0, 1) 500000))
      (cellSq (100000, 100000) 500000)) = (810002700002 : ℚ) := by
    apply gridArea_eq
    show (gridOps.union2 (cellSq (0, 0) 500000) (cellSq (0, 1) 500000) ∩
      cellSq (100000, 100000) 500000).card = 810002700002
    rw [hUC, Finset.card_product, hcard6, hcard7]
  have hm1 : ¬ min (gridOps.area (cellSq (0, 0) 500000))
      (gridOps.area (cellSq (0, 1) 500000)) = 0 := by
    rw [areaA, areaB, min_self]
    norm_num
  have hr1 : gridOps.area (gridOps.inter (cellSq (0, 0) 500000) (cellSq (0, 1) 500000)) /
      min (gridOps.area (cellSq (0, 0) 500000)) (gridOps.area (cellSq (0, 1) 500000)) *
      100 > 50 := by
    rw [areaAB, areaA, areaB, min_self]
    norm_num
  have hm2 : ¬ min (gridOps.area (gridOps.union2 (cellSq (0, 0) 500000) (cellSq (0, 1) 500000)))
      (gridOps.area (cellSq (100000, 100000) 500000)) = 0 := by
    rw [areaU, areaC, min_eq_right (by norm_num : (1000002000001 : ℚ) ≤ 1000003000002)]
    norm_num
  have hr2 : gridOps.area (gridOps.inter
      (gridOps.union2 (cellSq (0, 0) 500000) (cellSq (0, 1) 500000))
      (cellSq (100000, 100000) 500000)) /
      min (gridOps.area (gridOps.union2 (cellSq (0, 0) 500000) (cellSq (0, 1) 500000)))
        (gridOps.area (cellSq (100000, 100000) 500000)) * 100 > 50 := by
    rw [areaUC, areaU, areaC, min_eq_right (by norm_num : (1000002000001 : ℚ) ≤ 1000003000002)]
    norm_num
  have scan1 : mergeScan gridOps 50 (cellSq (0, 0) 500000)
      [(1, ⟨cellSq (0, 1) 500000, []⟩), (2, ⟨cellSq (100000, 100000) 500000, []⟩)] =
      .ok ([1, 2],
        gridOps.union2 (gridOps.union2 (cellSq (0, 0) 500000) (cellSq (0, 1) 500000))
          (cellSq (100000, 100000) 500000), []) := by
    rw [mergeScan_cons_absorb gridOps 50 (cellSq (0, 0) 500000) 1 (cellSq (0, 1) 500000) []
      [(2, ⟨cellSq (100000, 100000) 500000, []⟩)] hint1 hm1 hr1]
    rw [mergeScan_cons_absorb gridOps 50
      (gridOps.union2 (cellSq (0, 0) 500000) (cellSq (0, 1) 500000)) 2
      (cellSq (100000, 100000) 500000) [] [] hint2 hm2 hr2]
    rw [mergeScan_nil]
    rfl
  have hbuf : (bufferedList gridOps 500000 exC1Feats).enum =
      [(0, ⟨cellSq (0, 0) 500000, []⟩), (1, ⟨cellSq (0, 1) 500000, []⟩),
       (2, ⟨cellSq (100000, 100000) 500000, []⟩)] := by
    simp [bufferedList, exC1Feats, gridOps, gridBuffer_singleton, List.enum, List.enumFrom]
  have step : overlapMerger gridOps 500000 50 exC1Feats = mergeLoopAux gridOps 50 3
      [(0, ⟨cellSq (0, 0) 500000, []⟩), (1, ⟨cellSq (0, 1) 500000, []⟩),
       (2, ⟨cellSq (100000, 100000) 500000, []⟩)] := by
    rw [overlapMerger, mergeLoop, hbuf]
    rfl
  have hloop : mergeLoopAux gridOps 50 3
      [(0, ⟨cellSq (0, 0) 500000, []⟩), (1, ⟨cellSq (0, 1) 500000, []⟩),
       (2, ⟨cellSq (100000, 100000) 500000, []⟩)] =
      .ok [mkMergedRecord
        (gridOps.union2 (gridOps.union2 (cellSq (0, 0) 500000) (cellSq (0, 1) 500000))
          (cellSq (100000, 100000) 500000)) 3
        (gridOps.centroid
          (gridOps.union2 (gridOps.union2 (cellSq (0, 0) 500000) (cellSq (0, 1) 500000))
            (cellSq (100000, 100000) 500000)))] :=
    mergeLoopAux_cons_eval gridOps 50 2 0 (cellSq (0, 0) 500000) []
      [(1, ⟨cellSq (0, 1) 500000, []⟩), (2, ⟨cellSq (100000, 100000) 500000, []⟩)]
      [1, 2]
      (gridOps.union2 (gridOps.union2 (cellSq (0, 0) 500000) (cellSq (0, 1) 500000))
        (cellSq (100000, 100000) 500000))
      [] [] scan1 (mergeLoopAux_nil_eval gridOps 50 2)
  rw [step, hloop]
  rfl
